import Mathlib

/-!
# port-check-tool: the host monitor, the host-list reader and the result sink

A shallow embedding of `port-check.go` (with the call sites of `main.go`):

* `Host`, `Result`: the two records of the program.
* `Host.Run`: the select loop of one monitor, as a step function over the
  events the loop can receive (a tick of `time.Tick`, the single value of
  `time.After`), folded over an event sequence.
* `ReadInput`: the `bufio.Scanner` loop that builds the host list.
* `ReadResults`: the loop that drains the result channel.

Conventions.  Go's `int` counters (`FailedCount`, `PassedCount`,
`resultCount`) count events one at a time, from 0; they are `Int` here,
without wrap-around: a counter would need 2^63 increments to overflow.
`MaxFailureCount` and `hostCount` are inputs and may be any `Int`.  A
`time.Duration` is an `Int` of nanoseconds.  A Go `string` is a `String` (the
texts that are valid UTF-8); its `len` is the UTF-8 byte size.  A send
`r <- result` is recorded when the statement is executed.
-/

namespace PortCheck

/-! ## Data model -/

/-- Host contains the settings needed to make a health check. -/
structure Host where
  /-- The name or IP address of the host that is to be scanned. -/
  Name : String
  /-- The tcp port to be scanned. -/
  Port : String
  /-- The max number of failures that considers a node down. -/
  MaxFailureCount : Int
  /-- How long to continue to check if a host is down or up. -/
  TimeLimit : Int
  /-- The interval to run the actual tcp check. -/
  CheckInterval : Int
deriving DecidableEq, Repr

/-- Result contains the result of the health check.  The Go field `Host` is a
pointer to the monitored `Host`, which nothing mutates after `ReadInput`
built it; it is held by value here. -/
structure Result where
  Host : Host
  /-- Number of times a check failed. -/
  FailedCount : Int
  /-- Number of times a check passed. -/
  PassedCount : Int
  /-- Is the node to be considered flapping. -/
  IsFlapping : Bool
  /-- Is the node to be considered up. -/
  IsUp : Bool
  /-- Is the node to be considered down. -/
  IsDown : Bool
  /-- The reporting message. -/
  Msg : String
deriving DecidableEq, Repr

/-! ## The connector and `CheckPort` -/

/-- One second, in nanoseconds (`time.Second`). -/
def Second : Int := 1000000000

/-- The `Connector` interface: one method, `ConnectTCP(address, timeOut)`,
returning an error (`some e`) or nil (`none`).  The outcome of a connection
attempt depends on the network at the time of the call, so the method takes
the index of the call as a first argument: `ConnectTCP k address timeOut` is
what the `k`-th call made by a monitor returns. -/
structure Connector where
  ConnectTCP : Nat → String → Int → Option String

/-- The test double of the test file: every call returns `Err`. -/
def FakeClient (Err : Option String) : Connector :=
  ⟨fun _ _ _ => Err⟩

/-- The library function `net.JoinHostPort`: `host:port`, with the host in
square brackets when it contains a colon. -/
def JoinHostPort (host port : String) : String :=
  if host.data.contains ':' then "[" ++ host ++ "]:" ++ port
  else host ++ ":" ++ port

/-- CheckPort checks the TCP port and reports an error if one happens; `k` is
the index of this call among the monitor's probes. -/
def Host.CheckPort (h : Host) (c : Connector) (k : Nat) : Option String :=
  let timeOut := 1 * Second
  let address := JoinHostPort h.Name h.Port
  match c.ConnectTCP k address timeOut with
  | some err => some err
  | none => none

/-! ## `Host.Run` -/

/-- What the select statement of `Run` can receive. -/
inductive Event where
  /-- A value on the channel of `time.Tick(h.CheckInterval)`. -/
  | tick
  /-- The value on the channel of `time.After(h.TimeLimit)`. -/
  | timeout
deriving DecidableEq, Repr

/-- The state of one `Run` call between two iterations of its loop. -/
structure RunState where
  /-- The local variable `result`. -/
  result : Result
  /-- The loop has not been left through `break DONE`. -/
  running : Bool
  /-- The channel of `time.After` still holds its value: it delivers exactly
  one, so the timeout case is taken at most once. -/
  timeoutPending : Bool
  /-- Number of `ConnectTCP` calls made so far. -/
  probes : Nat
  /-- The values sent on the channel `r`, oldest first. -/
  emitted : List Result
deriving DecidableEq, Repr

/-- The state of `Run` on entering the loop. -/
def RunState.start (h : Host) : RunState :=
  { result :=
      { Host := h
        FailedCount := 0
        PassedCount := 0
        IsFlapping := false
        IsUp := false
        IsDown := false
        Msg := "" }
    running := true
    timeoutPending := true
    probes := 0
    emitted := [] }

/-- The body of `case <-timeout:`; returns the new value of `result` and the
value sent on `r`, if any.  The case ends without `break`: the loop goes on. -/
def Host.timeoutCase (h : Host) (result : Result) : Result × Option Result :=
  if result.FailedCount == h.MaxFailureCount then
    let result := { result with IsDown := true }
    let result := { result with Msg := h.Name ++ " is down" }
    (result, some result)
  else if result.FailedCount > 0 && result.PassedCount == 0 then
    let result := { result with IsDown := true }
    let result := { result with Msg := h.Name ++ " is down" }
    (result, some result)
  else if result.FailedCount > 0 && result.PassedCount > 0 then
    let result := { result with IsFlapping := true }
    let result := { result with Msg := h.Name ++ " is flapping" }
    (result, some result)
  else if result.FailedCount == 0 && result.PassedCount > 0 then
    let result := { result with IsUp := true }
    let result := { result with Msg := h.Name ++ " is reporting ok" }
    (result, some result)
  else
    (result, none)

/-- The body of `case <-tick:`, whose probe is the `k`-th; returns the new
value of `result`, the value sent on `r`, if any, and whether `break DONE`
was executed. -/
def Host.tickCase (h : Host) (c : Connector) (k : Nat) (result : Result) :
    Result × Option Result × Bool :=
  match h.CheckPort c k with
  | some _ =>
    let result := { result with FailedCount := result.FailedCount + 1 }
    if result.FailedCount == result.Host.MaxFailureCount then
      if result.FailedCount == h.MaxFailureCount then
        let result := { result with IsDown := true }
        let result := { result with Msg := h.Name ++ " is down" }
        (result, some result, true)
      else
        (result, none, false)
    else
      (result, none, false)
  | none =>
    ({ result with PassedCount := result.PassedCount + 1 }, none, false)

/-- One iteration of the loop of `Run` on the event `e`.  After `break DONE`
the function has returned and no event reaches it; a timeout event is only
received while the `time.After` channel holds its value. -/
def Host.step (h : Host) (c : Connector) (s : RunState) (e : Event) : RunState :=
  if !s.running then s
  else
    match e with
    | Event.timeout =>
      if !s.timeoutPending then s
      else
        let (result, sent) := h.timeoutCase s.result
        { s with
          result := result
          timeoutPending := false
          emitted := s.emitted ++ sent.toList }
    | Event.tick =>
      let (result, sent, brk) := h.tickCase c s.probes s.result
      { s with
        result := result
        running := !brk
        probes := s.probes + 1
        emitted := s.emitted ++ sent.toList }

/-- `Run` on a sequence of events: the state it reaches, with everything it
sent on the result channel. -/
def Host.Run (h : Host) (c : Connector) (events : List Event) : RunState :=
  events.foldl (h.step c) (RunState.start h)

/-- The first `n` ticks. -/
def ticks (n : Nat) : List Event := List.replicate n Event.tick

/-- Number of failed probes among the first `n` probes of host `h`. -/
def failedProbes (h : Host) (c : Connector) (n : Nat) : Nat :=
  (List.range n).countP (fun k => (h.CheckPort c k).isSome)

/-- Number of successful probes among the first `n` probes of host `h`. -/
def passedProbes (h : Host) (c : Connector) (n : Nat) : Nat :=
  (List.range n).countP (fun k => (h.CheckPort c k).isNone)

/-- Exactly one of the three status tags is set. -/
def Result.oneTag (r : Result) : Bool :=
  (r.IsUp && !r.IsDown && !r.IsFlapping) ||
  (!r.IsUp && r.IsDown && !r.IsFlapping) ||
  (!r.IsUp && !r.IsDown && r.IsFlapping)

/-! ## `ReadInput` -/

/-- An `io.Reader`: it delivers the bytes of `data` and then reports `err`,
where `none` is `io.EOF`.  `strings.NewReader s` is `⟨s, none⟩`. -/
structure Reader where
  data : String
  err : Option String
deriving DecidableEq, Repr

/-- The library function `strings.NewReader`. -/
def NewReader (s : String) : Reader := ⟨s, none⟩

/-- The library constant `bufio.MaxScanTokenSize`: the size of the largest
buffer a `Scanner` made by `bufio.NewScanner` allocates. -/
def MaxScanTokenSize : Nat := 64 * 1024

/-- The library error `bufio.ErrTooLong`. -/
def ErrTooLong : String := "bufio.Scanner: token too long"

/-- The line feed, the end-of-line marker of `bufio.ScanLines`. -/
def LF : Char := Char.ofNat 10

/-- The carriage return, which `bufio.ScanLines` drops before a line feed. -/
def CR : Char := Char.ofNat 13

/-- The library function `dropCR` of `bufio`: drops one terminal carriage
return. -/
def dropCR (data : List Char) : List Char :=
  if data.getLast? = some CR then data.dropLast else data

/-- What the scanner finds at the head of the unread input. -/
inductive Split where
  /-- A line ended by a line feed, and the input after the line feed. -/
  | line (token rest : List Char)
  /-- The input ended before a line feed: the final, non-terminated line. -/
  | final (token : List Char)
  /-- The buffer filled up before a line feed was found. -/
  | tooLong
deriving DecidableEq, Repr

/-- The head line of the input, where `size` bytes of the line are already in
the buffer.  A `Scanner` reads into a buffer that grows up to
`MaxScanTokenSize` bytes; when that many bytes are held and none is a line
feed, scanning stops with `ErrTooLong`. -/
def scanLine : List Char → Nat → Split
  | [], _ => Split.final []
  | ch :: rest, size =>
    if ch = LF then Split.line [] rest
    else if MaxScanTokenSize ≤ size + ch.utf8Size then Split.tooLong
    else
      match scanLine rest (size + ch.utf8Size) with
      | Split.line token rest => Split.line (ch :: token) rest
      | Split.final token => Split.final (ch :: token)
      | Split.tooLong => Split.tooLong

/-- A `bufio.Scanner` with the default split function `bufio.ScanLines`, at
the level of the tokens it delivers. -/
structure Scanner where
  /-- The input that no token has consumed yet. -/
  input : List Char
  /-- What the reader reports once its bytes are read; `none` is `io.EOF`. -/
  readErr : Option String
  /-- The token of the last successful `Scan`. -/
  token : List Char
  /-- The first error met, as `Err()` reports it: `none` is nil, which is
  also what `Err()` returns for `io.EOF`. -/
  err : Option String
  /-- `Scan` has returned false. -/
  done : Bool
deriving DecidableEq, Repr

/-- The library function `bufio.NewScanner`. -/
def NewScanner (reader : Reader) : Scanner :=
  { input := reader.data.data
    readErr := reader.err
    token := []
    err := none
    done := false }

/-- The method `Scanner.Err`. -/
def Scanner.Err (s : Scanner) : Option String := s.err

/-- The method `Scanner.Text`. -/
def Scanner.Text (s : Scanner) : String := String.mk s.token

/-- The method `Scanner.Scan`: advances to the next line, which `Text` then
returns; false when scanning stops, at the end of the input, at a read error
(after the bytes read before it were delivered) or at a line too long for the
buffer.  Lines may be empty; the last line is delivered without a line feed
if it is not empty. -/
def Scanner.Scan (s : Scanner) : Bool × Scanner :=
  if s.done then (false, s)
  else
    match s.input with
    | [] => (false, { s with token := [], err := s.readErr, done := true })
    | _ :: _ =>
      match scanLine s.input 0 with
      | Split.line token rest =>
        (true, { s with input := rest, token := dropCR token })
      | Split.final token =>
        (true, { s with input := [], token := dropCR token })
      | Split.tooLong =>
        (false, { s with token := [], err := some ErrTooLong, done := true })

/-- The loop `for scanner.Scan() { ... }` of `ReadInput`, run for at most
`fuel` iterations. -/
def ReadInput.loop (host : Host) : Nat → Scanner → List Host → List Host
  | 0, _, hosts => hosts
  | fuel + 1, scanner, hosts =>
    match scanner.Scan with
    | (true, scanner) =>
      let hostname := scanner.Text
      ReadInput.loop host fuel scanner
        (hosts ++ [{ Name := hostname
                     Port := host.Port
                     MaxFailureCount := host.MaxFailureCount
                     TimeLimit := host.TimeLimit
                     CheckInterval := host.CheckInterval }])
    | (false, _) => hosts

/-- ReadInput takes in the settings for check and returns a list of Host
structs read from the reader, with the returned error.  A successful `Scan`
consumes at least one character, so one iteration more than the input has
characters runs the loop to its end (`ReadInput_loop_fuel`). -/
def ReadInput (host : Host) (reader : Reader) : List Host × Option String :=
  let scanner := NewScanner reader
  match scanner.Err with
  | some err => ([], some err)
  | none => (ReadInput.loop host (reader.data.length + 1) scanner [], none)

/-- The Host that `ReadInput` builds for the line `hostname`. -/
def hostOf (host : Host) (hostname : String) : Host :=
  { Name := hostname
    Port := host.Port
    MaxFailureCount := host.MaxFailureCount
    TimeLimit := host.TimeLimit
    CheckInterval := host.CheckInterval }

/-- Go's `len` of a string: its number of bytes. -/
def byteLen (l : List Char) : Nat := (l.map Char.utf8Size).sum

/-- A line a `Scanner` delivers unchanged: no line feed in it, no carriage
return at its end, shorter than `MaxScanTokenSize` bytes. -/
def goodLine (l : String) : Prop :=
  LF ∉ l.data ∧ l.data.getLast? ≠ some CR ∧ byteLen l.data < MaxScanTokenSize

instance (l : String) : Decidable (goodLine l) := by
  unfold goodLine
  infer_instance

/-- The text made of the lines `ls`, with a line feed after each line, except
after the last one when `finalLF` is false. -/
def textOf (finalLF : Bool) : List String → List Char
  | [] => []
  | l :: ls =>
    if ls.isEmpty && !finalLF then l.data
    else l.data ++ LF :: textOf finalLF ls

/-- A line of `MaxScanTokenSize` letters. -/
def longLine : String := String.mk (List.replicate MaxScanTokenSize 'a')

/-! ## `ReadResults` -/

/-- The completion marker of `ReadResults`. -/
def finishedMsg : String := "Finished processing results"

/-- How a `ReadResults` call ends. -/
structure SinkOutcome where
  /-- The lines printed, oldest first. -/
  printed : List String
  /-- The Results left in the queue. -/
  left : List Result
  /-- The function returned; false when it waits for ever in the receive,
  the queue delivering nothing more. -/
  returned : Bool
deriving DecidableEq, Repr

/-- The loop of `ReadResults` over the Results `rq` that the channel delivers,
in order of arrival. -/
def ReadResults.loop (hostCount : Int) : List Result → Int → List String → SinkOutcome
  | [], _, printed => { printed := printed, left := [], returned := false }
  | result :: rq, resultCount, printed =>
    let resultCount := resultCount + 1
    let printed := printed ++ [result.Msg]
    if hostCount == resultCount then
      { printed := printed ++ [finishedMsg], left := rq, returned := true }
    else
      ReadResults.loop hostCount rq resultCount printed

/-- ReadResults receives from the channel, prints each message and stops when
the count of received Results equals `hostCount`. -/
def ReadResults (rq : List Result) (hostCount : Int) : SinkOutcome :=
  ReadResults.loop hostCount rq 0 []

/-- What holds of a state of `Run` in which the loop is still running and the
timeout has not been handled. -/
def Host.Fresh (h : Host) (s : RunState) : Prop :=
  s.result.Host = h ∧ s.result.FailedCount < h.MaxFailureCount ∧
    s.result.IsFlapping = false ∧ s.result.IsUp = false ∧ s.result.IsDown = false ∧
    s.emitted = []

/-! ## Lemmas on `Host.Run` -/

theorem step_stopped (h : Host) (c : Connector) (s : RunState) (e : Event)
    (hs : s.running = false) : h.step c s e = s := by
  simp [Host.step, hs]

theorem foldl_step_stopped (h : Host) (c : Connector) (events : List Event) :
    ∀ s : RunState, s.running = false → events.foldl (h.step c) s = s := by
  induction events with
  | nil => intro s _; rfl
  | cons e es ih =>
    intro s hs
    rw [List.foldl_cons, step_stopped h c s e hs]
    exact ih s hs

theorem Run_append (h : Host) (c : Connector) (xs ys : List Event) :
    h.Run c (xs ++ ys) = ys.foldl (h.step c) (h.Run c xs) := by
  simp [Host.Run, List.foldl_append]

theorem ticks_succ (n : Nat) : ticks (n + 1) = ticks n ++ [Event.tick] := by
  simp [ticks, List.replicate_succ']

theorem failedProbes_succ (h : Host) (c : Connector) (n : Nat) :
    failedProbes h c (n + 1)
      = failedProbes h c n + (if (h.CheckPort c n).isSome then 1 else 0) := by
  simp [failedProbes, List.range_succ, List.countP_append, List.countP_cons]

theorem passedProbes_succ (h : Host) (c : Connector) (n : Nat) :
    passedProbes h c (n + 1)
      = passedProbes h c n + (if (h.CheckPort c n).isNone then 1 else 0) := by
  simp [passedProbes, List.range_succ, List.countP_append, List.countP_cons]

theorem failed_add_passed (h : Host) (c : Connector) (n : Nat) :
    failedProbes h c n + passedProbes h c n = n := by
  induction n with
  | zero => simp [failedProbes, passedProbes]
  | succ n ih =>
    rw [failedProbes_succ, passedProbes_succ]
    cases hk : h.CheckPort c n <;> simp <;> omega

theorem failedProbes_mono (h : Host) (c : Connector) (m n : Nat) (hmn : m ≤ n) :
    failedProbes h c m ≤ failedProbes h c n := by
  induction n with
  | zero =>
    have : m = 0 := by omega
    subst this
    exact Nat.le_refl _
  | succ n ih =>
    by_cases hm : m = n + 1
    · subst hm; exact Nat.le_refl _
    · have := ih (by omega)
      rw [failedProbes_succ]
      omega

/-- The state after `n` ticks during which the number of failed probes never
equals `MaxFailureCount`: the counters hold the numbers of failed and passed
probes, no tag is set and nothing was sent. -/
theorem Run_ticks_unreached (h : Host) (c : Connector) (n : Nat)
    (hun : ∀ m, m ≤ n → (failedProbes h c m : Int) ≠ h.MaxFailureCount) :
    h.Run c (ticks n) =
      { result :=
          { Host := h
            FailedCount := failedProbes h c n
            PassedCount := passedProbes h c n
            IsFlapping := false
            IsUp := false
            IsDown := false
            Msg := "" }
        running := true
        timeoutPending := true
        probes := n
        emitted := [] } := by
  induction n with
  | zero => simp [Host.Run, ticks, RunState.start, failedProbes, passedProbes]
  | succ n ih =>
    have hpre := ih (fun m hm => hun m (by omega))
    have hlast := hun (n + 1) (Nat.le_refl _)
    rw [ticks_succ, Run_append, hpre]
    rw [failedProbes_succ] at hlast ⊢
    rw [passedProbes_succ]
    cases hk : h.CheckPort c n with
    | none =>
      simp [Host.step, Host.tickCase, hk]
    | some err =>
      simp only [hk, Option.isSome_some, if_true] at hlast
      have hne : ¬ ((failedProbes h c n : Int) + 1 = h.MaxFailureCount) := by
        push_cast at hlast; exact hlast
      simp [Host.step, Host.tickCase, hk, hne]

/-- The state after `n` ticks while fewer than `MaxFailureCount` probes
failed. -/
theorem Run_ticks_below (h : Host) (c : Connector) (n : Nat)
    (hlt : (failedProbes h c n : Int) < h.MaxFailureCount) :
    h.Run c (ticks n) =
      { result :=
          { Host := h
            FailedCount := failedProbes h c n
            PassedCount := passedProbes h c n
            IsFlapping := false
            IsUp := false
            IsDown := false
            Msg := "" }
        running := true
        timeoutPending := true
        probes := n
        emitted := [] } := by
  apply Run_ticks_unreached
  intro m hm
  have := failedProbes_mono h c m n hm
  omega

theorem step_running_of_running (h : Host) (c : Connector) (s : RunState) (e : Event)
    (hr : (h.step c s e).running = true) : s.running = true := by
  cases hs : s.running with
  | true => rfl
  | false => rw [step_stopped h c s e hs, hs] at hr; exact hr

theorem step_pending_of_pending (h : Host) (c : Connector) (s : RunState) (e : Event)
    (hp : (h.step c s e).timeoutPending = true) : s.timeoutPending = true := by
  cases hs : s.running with
  | false => rw [step_stopped h c s e hs] at hp; exact hp
  | true =>
    cases e with
    | tick => simpa [Host.step, hs] using hp
    | timeout =>
      cases hq : s.timeoutPending with
      | true => rfl
      | false => simp [Host.step, hs, hq] at hp

theorem step_fresh (h : Host) (c : Connector) (s : RunState)
    (hf : h.Fresh s)
    (hr : (h.step c s Event.tick).running = true) :
    h.Fresh (h.step c s Event.tick) := by
  obtain ⟨h1, h2, h3, h4, h5, h6⟩ := hf
  have hs := step_running_of_running h c s Event.tick hr
  cases hk : h.CheckPort c s.probes with
  | none =>
    simp [Host.step, Host.tickCase, hs, hk, Host.Fresh, h1, h2, h3, h4, h5, h6]
  | some err =>
    by_cases heq : s.result.FailedCount + 1 = h.MaxFailureCount
    · simp [Host.step, Host.tickCase, hs, hk, h1, heq] at hr
    · have hlt : s.result.FailedCount + 1 < h.MaxFailureCount := by omega
      simp [Host.step, Host.tickCase, hs, hk, Host.Fresh, h1, heq, hlt, h3, h4, h5, h6]

theorem Run_fresh (h : Host) (c : Connector) (hmax : 1 ≤ h.MaxFailureCount)
    (events : List Event) :
    (h.Run c events).running = true → (h.Run c events).timeoutPending = true →
      h.Fresh (h.Run c events) := by
  induction events using List.reverseRecOn with
  | nil =>
    intro _ _
    refine ⟨rfl, ?_, rfl, rfl, rfl, rfl⟩
    show (0 : Int) < h.MaxFailureCount
    omega
  | append_singleton es e ih =>
    intro hr hp
    rw [Run_append] at hr hp ⊢
    simp only [List.foldl_cons, List.foldl_nil] at hr hp ⊢
    have hr0 := step_running_of_running h c _ e hr
    have hp0 := step_pending_of_pending h c _ e hp
    have hf := ih hr0 hp0
    cases e with
    | tick => exact step_fresh h c _ hf hr
    | timeout => simp [Host.step, hr0, hp0] at hp

/-! ## Claims on `Host.Run` -/

/-- C3: the timeout case, taken with the counters `f` (failed) and `p`
(passed) and no tag set yet, sends what the classification rule says: Down
with "<name> is down" if `f = MaxFailureCount`, or else `f > 0` and `p = 0`;
else Flapping with "<name> is flapping" if `f > 0` and `p > 0`; else Up with
"<name> is reporting ok" if `f = 0` and `p > 0`; and nothing when both
counters are zero and `MaxFailureCount` is not. -/
theorem timeout_classification (h : Host) (c : Connector) (f p : Int) (k : Nat)
    (sent : List Result) :
    let fresh : Result :=
      { Host := h, FailedCount := f, PassedCount := p
        IsFlapping := false, IsUp := false, IsDown := false, Msg := "" }
    let out := (h.step c
      { result := fresh, running := true, timeoutPending := true
        probes := k, emitted := sent } Event.timeout).emitted
    ((f = h.MaxFailureCount ∨ (0 < f ∧ p = 0)) →
        out = sent ++ [{ fresh with IsDown := true, Msg := h.Name ++ " is down" }]) ∧
    (¬ (f = h.MaxFailureCount ∨ (0 < f ∧ p = 0)) → (0 < f ∧ 0 < p) →
        out = sent ++ [{ fresh with IsFlapping := true, Msg := h.Name ++ " is flapping" }]) ∧
    (¬ (f = h.MaxFailureCount ∨ (0 < f ∧ p = 0)) → ¬ (0 < f ∧ 0 < p) → (f = 0 ∧ 0 < p) →
        out = sent ++ [{ fresh with IsUp := true, Msg := h.Name ++ " is reporting ok" }]) ∧
    (f = 0 → p = 0 → h.MaxFailureCount ≠ 0 → out = sent) := by
  intro fresh out
  refine ⟨?_, ?_, ?_, ?_⟩
  · intro hd
    by_cases h1 : f = h.MaxFailureCount
    · simp [out, fresh, Host.step, Host.timeoutCase, h1]
    · rcases hd with hd | ⟨hf, hp⟩
      · exact absurd hd h1
      · simp [out, fresh, Host.step, Host.timeoutCase, h1, hf, hp]
  · intro hnd ⟨hf, hp⟩
    have h1 : ¬ f = h.MaxFailureCount := fun e => hnd (Or.inl e)
    have h2 : ¬ p = 0 := by omega
    simp [out, fresh, Host.step, Host.timeoutCase, h1, hf, hp, h2]
  · intro hnd _ ⟨hf, hp⟩
    have h1 : ¬ (0 : Int) = h.MaxFailureCount := fun e => hnd (Or.inl (hf.trans e))
    have h2 : ¬ p = 0 := by omega
    subst hf
    simp [out, fresh, Host.step, Host.timeoutCase, h1, hp, h2]
  · intro hf hp hm
    have h1 : ¬ (0 : Int) = h.MaxFailureCount := fun e => hm e.symm
    subst hf hp
    simp [out, fresh, Host.step, Host.timeoutCase, h1]

/-- C3 at a concrete input: with 1 failed and 2 passed probes and a threshold
of 5, the timeout case sends one Result tagged Flapping. -/
theorem timeout_classification_witness :
    ((Host.mk "foo.bar.net" "22" 5 60 20).step (FakeClient none)
      { result := ⟨Host.mk "foo.bar.net" "22" 5 60 20, 1, 2, false, false, false, ""⟩
        running := true, timeoutPending := true, probes := 3, emitted := [] }
      Event.timeout).emitted
      = [⟨Host.mk "foo.bar.net" "22" 5 60 20, 1, 2, true, false, false,
          "foo.bar.net is flapping"⟩] :=
  (timeout_classification (Host.mk "foo.bar.net" "22" 5 60 20) (FakeClient none) 1 2 3 []).2.1
    (by decide) (by decide)

/-- C4: when the probe of tick `n + 1` fails and is the `MaxFailureCount`-th
failed probe, all before the timeout, then nothing was sent before that tick,
the tick sends one Result tagged Down, with "<name> is down",
`FailedCount = MaxFailureCount` and `PassedCount + FailedCount = n + 1`, the
loop is left, and whatever events follow leave the whole state (probes made,
counters, Results sent) as it is. -/
theorem threshold_early_exit (h : Host) (c : Connector) (n : Nat) (rest : List Event)
    (hfail : (h.CheckPort c n).isSome = true)
    (hreach : (failedProbes h c (n + 1) : Int) = h.MaxFailureCount) :
    let down : Result :=
      { Host := h, FailedCount := h.MaxFailureCount, PassedCount := passedProbes h c (n + 1)
        IsFlapping := false, IsUp := false, IsDown := true, Msg := h.Name ++ " is down" }
    (h.Run c (ticks n)).emitted = [] ∧
    (h.Run c (ticks n)).running = true ∧
    (h.Run c (ticks (n + 1))).emitted = [down] ∧
    down.PassedCount + down.FailedCount = ((n + 1 : Nat) : Int) ∧
    (h.Run c (ticks (n + 1))).running = false ∧
    (h.Run c (ticks (n + 1))).probes = n + 1 ∧
    h.Run c (ticks (n + 1) ++ rest) = h.Run c (ticks (n + 1)) := by
  intro down
  have hsucc := failedProbes_succ h c n
  have hpsucc := passedProbes_succ h c n
  have hsum := failed_add_passed h c (n + 1)
  rw [hfail] at hsucc
  simp only [if_true] at hsucc
  have hbelow : (failedProbes h c n : Int) < h.MaxFailureCount := by omega
  have hpre := Run_ticks_below h c n hbelow
  have heq : (failedProbes h c n : Int) + 1 = h.MaxFailureCount := by omega
  obtain ⟨err, hk⟩ := Option.isSome_iff_exists.mp hfail
  have hpass : passedProbes h c (n + 1) = passedProbes h c n := by
    rw [hpsucc, hk]; simp
  have hpost : h.Run c (ticks (n + 1)) =
      { result := down, running := false, timeoutPending := true
        probes := n + 1, emitted := [down] } := by
    rw [ticks_succ, Run_append, hpre]
    simp [Host.step, Host.tickCase, hk, heq, down, hpass]
  refine ⟨by rw [hpre], by rw [hpre], by rw [hpost], ?_, by rw [hpost], by rw [hpost], ?_⟩
  · show (passedProbes h c (n + 1) : Int) + h.MaxFailureCount = ((n + 1 : Nat) : Int)
    rw [← hreach]
    omega
  · rw [Run_append]
    exact foldl_step_stopped h c rest _ (by rw [hpost])

/-- C4 at a concrete input: threshold 2, the probes fail, pass, fail; the third
tick sends the Down Result, and a later tick and timeout change nothing. -/
theorem threshold_early_exit_witness :
    ((Host.mk "h" "22" 2 60 20).Run ⟨fun k _ _ => if k = 1 then none else some "refused"⟩
        (ticks 3)).emitted
      = [⟨Host.mk "h" "22" 2 60 20, 2, 1, false, false, true, "h is down"⟩] ∧
    (Host.mk "h" "22" 2 60 20).Run ⟨fun k _ _ => if k = 1 then none else some "refused"⟩
        (ticks 3 ++ [Event.tick, Event.timeout])
      = (Host.mk "h" "22" 2 60 20).Run ⟨fun k _ _ => if k = 1 then none else some "refused"⟩
        (ticks 3) := by
  have w := threshold_early_exit (Host.mk "h" "22" 2 60 20)
    ⟨fun k _ _ => if k = 1 then none else some "refused"⟩ 2 [Event.tick, Event.timeout]
    (by decide) (by decide)
  exact ⟨w.2.2.1.trans (by decide), w.2.2.2.2.2.2⟩

/-- C5: for every Host, after `n` ticks during which the number of failed
probes never equals `MaxFailureCount` (the threshold is not reached), every
Result sent at the timeout refers to the Host and carries the number of
successful probes as `PassedCount` and the number of failed probes as
`FailedCount`; with `n ≥ 1` exactly one Result is sent; and with `n ≥ 1` and a
Connector that always succeeds it is the Result tagged Up with
`PassedCount = n` and `FailedCount = 0`. -/
theorem timeout_counts (h : Host) (c : Connector) (n : Nat)
    (hun : ∀ m, m ≤ n → (failedProbes h c m : Int) ≠ h.MaxFailureCount) :
    (∀ r ∈ (h.Run c (ticks n ++ [Event.timeout])).emitted,
        r.Host = h ∧ r.PassedCount = passedProbes h c n ∧
          r.FailedCount = failedProbes h c n) ∧
    (1 ≤ n → (h.Run c (ticks n ++ [Event.timeout])).emitted.length = 1) ∧
    (1 ≤ n → (∀ k, k < n → h.CheckPort c k = none) →
        (h.Run c (ticks n ++ [Event.timeout])).emitted =
          [{ Host := h, FailedCount := 0, PassedCount := n
             IsFlapping := false, IsUp := true, IsDown := false
             Msg := h.Name ++ " is reporting ok" }]) := by
  have hpre := Run_ticks_unreached h c n hun
  have hsum := failed_add_passed h c n
  have hne : ¬ ((failedProbes h c n : Int) = h.MaxFailureCount) := hun n (Nat.le_refl _)
  refine ⟨?_, ?_, ?_⟩
  · intro r hr
    rw [Run_append, hpre] at hr
    simp only [List.foldl_cons, List.foldl_nil, Host.step, Host.timeoutCase] at hr
    split_ifs at hr <;> simp at hr <;> subst hr <;> simp
  · intro hn
    rw [Run_append, hpre]
    simp only [List.foldl_cons, List.foldl_nil, Host.step, Host.timeoutCase]
    split_ifs with h1 h2 h3 h4 <;> simp at *
    omega
  · intro hn hall
    have hzero : failedProbes h c n = 0 := by
      simp only [failedProbes, List.countP_eq_zero, List.mem_range]
      intro k hk
      simp [hall k hk]
    have hpass : passedProbes h c n = n := by omega
    have hmax : ¬ ((0 : Int) = h.MaxFailureCount) := by
      rw [hzero] at hne; simpa using hne
    have hpos : (0 : Int) < (n : Int) := by omega
    have hnz : ¬ ((n : Int) = 0) := by omega
    rw [Run_append, hpre, hzero, hpass]
    simp [Host.step, Host.timeoutCase, hmax, hpos, hnz]

/-- C5 at the input of `TestRun`: one host, a Connector that always succeeds,
`MaxFailureCount` 4, four ticks before the timeout: one Result, tagged Up,
with `PassedCount = 4`. -/
theorem timeout_counts_witness :
    ((Host.mk "127.0.0.1" "22" 4 (30 * Second) (6 * Second)).Run (FakeClient none)
        (ticks 4 ++ [Event.timeout])).emitted
      = [⟨Host.mk "127.0.0.1" "22" 4 (30 * Second) (6 * Second), 0, 4, false, true, false,
          "127.0.0.1 is reporting ok"⟩] :=
  (timeout_counts (Host.mk "127.0.0.1" "22" 4 (30 * Second) (6 * Second)) (FakeClient none) 4
    (by decide)).2.2 (by decide) (fun _ _ => rfl)

/-- C10: for a Host with `MaxFailureCount ≥ 1`, in every state that `Run`
reaches with the loop still running and the timeout not yet handled,
`FailedCount < MaxFailureCount`; so every Result sent when the timeout is then
handled has `FailedCount < MaxFailureCount`, and is tagged Down only if its
`PassedCount` is 0. -/
theorem failed_below_threshold (h : Host) (c : Connector) (events : List Event)
    (hmax : 1 ≤ h.MaxFailureCount)
    (hrun : (h.Run c events).running = true)
    (hpend : (h.Run c events).timeoutPending = true) :
    (h.Run c events).result.FailedCount < h.MaxFailureCount ∧
    ∀ r ∈ (h.Run c (events ++ [Event.timeout])).emitted,
      r.FailedCount < h.MaxFailureCount ∧ (r.IsDown = true → r.PassedCount = 0) := by
  obtain ⟨_, hlt, _, _, hdown, hnone⟩ := Run_fresh h c hmax events hrun hpend
  refine ⟨hlt, ?_⟩
  intro r hr
  have hne : ¬ ((h.Run c events).result.FailedCount = h.MaxFailureCount) := by omega
  have hstep : (h.step c (h.Run c events) Event.timeout).emitted
      = (h.timeoutCase (h.Run c events).result).2.toList := by
    simp [Host.step, hrun, hpend, hnone]
  rw [Run_append] at hr
  simp only [List.foldl_cons, List.foldl_nil] at hr
  rw [hstep] at hr
  simp only [Host.timeoutCase] at hr
  split_ifs at hr with h1 h2 h3 h4 <;> simp at hr
  · simp at h1; exact absurd h1 hne
  · subst hr; simp at h2; simp [hlt, h2.2]
  · subst hr; simp [hlt, hdown]
  · subst hr; simp [hlt, hdown]

/-- C10 at a concrete input: threshold 3, the probes fail, pass; the state is
running with `FailedCount = 1 < 3`, and the timeout sends a Result that is not
tagged Down. -/
theorem failed_below_threshold_witness :
    ((Host.mk "h" "22" 3 60 20).Run ⟨fun k _ _ => if k = 1 then none else some "refused"⟩
        (ticks 2)).result.FailedCount < 3 ∧
    ∀ r ∈ ((Host.mk "h" "22" 3 60 20).Run
        ⟨fun k _ _ => if k = 1 then none else some "refused"⟩
        (ticks 2 ++ [Event.timeout])).emitted,
      r.FailedCount < 3 ∧ (r.IsDown = true → r.PassedCount = 0) :=
  failed_below_threshold (Host.mk "h" "22" 3 60 20)
    ⟨fun k _ _ => if k = 1 then none else some "refused"⟩ (ticks 2)
    (by decide) (by decide) (by decide)

/-- C1 (the code sends a second Result): threshold 2, every probe fails, one
tick before the timeout and one after.  The timeout case sends a Down Result
and, having no `break`, leaves the loop running; the next failed probe reaches
the threshold and sends a second Result. -/
theorem Run_sends_twice :
    ((Host.mk "h" "22" 2 (30 * Second) (20 * Second)).Run (FakeClient (some "refused"))
        [Event.tick, Event.timeout, Event.tick]).emitted
      = [⟨Host.mk "h" "22" 2 (30 * Second) (20 * Second), 1, 0, false, false, true, "h is down"⟩,
         ⟨Host.mk "h" "22" 2 (30 * Second) (20 * Second), 2, 0, false, false, true, "h is down"⟩] := by
  decide

/-- C2 (the code sends a Result with two tags): threshold 2, the probes pass,
fail, fail, with the timeout after the second.  The timeout case tags the
Result Flapping and sends it; the loop goes on, and the third probe reaches the
threshold, tags the same Result Down as well and sends it again. -/
theorem Run_sends_two_tags :
    ((Host.mk "h" "22" 2 (50 * Second) (20 * Second)).Run
        ⟨fun k _ _ => if k = 0 then none else some "refused"⟩
        [Event.tick, Event.tick, Event.timeout, Event.tick]).emitted
      = [⟨Host.mk "h" "22" 2 (50 * Second) (20 * Second), 1, 1, true, false, false,
            "h is flapping"⟩,
         ⟨Host.mk "h" "22" 2 (50 * Second) (20 * Second), 2, 1, true, false, true,
            "h is down"⟩] ∧
    Result.oneTag ⟨Host.mk "h" "22" 2 (50 * Second) (20 * Second), 2, 1, true, false, true,
            "h is down"⟩ = false := by
  decide

/-! ## Lemmas on `ReadInput` -/

theorem scanLine_line (l rest : List Char) :
    ∀ size : Nat, LF ∉ l → size + byteLen l < MaxScanTokenSize →
      scanLine (l ++ LF :: rest) size = Split.line l rest := by
  induction l with
  | nil => intro size _ _; simp [scanLine]
  | cons ch l ih =>
    intro size hno hlen
    have hch : ¬ ch = LF := fun e => hno (by simp [e])
    have hl : LF ∉ l := fun hm => hno (List.mem_cons_of_mem _ hm)
    simp only [byteLen, List.map_cons, List.sum_cons] at hlen
    have hfit : ¬ MaxScanTokenSize ≤ size + ch.utf8Size := by omega
    have hrec := ih (size + ch.utf8Size) hl (by simp only [byteLen]; omega)
    simp [scanLine, hch, hfit, hrec]

theorem scanLine_final (l : List Char) :
    ∀ size : Nat, LF ∉ l → size + byteLen l < MaxScanTokenSize →
      scanLine l size = Split.final l := by
  induction l with
  | nil => intro size _ _; simp [scanLine]
  | cons ch l ih =>
    intro size hno hlen
    have hch : ¬ ch = LF := fun e => hno (by simp [e])
    have hl : LF ∉ l := fun hm => hno (List.mem_cons_of_mem _ hm)
    simp only [byteLen, List.map_cons, List.sum_cons] at hlen
    have hfit : ¬ MaxScanTokenSize ≤ size + ch.utf8Size := by omega
    have hrec := ih (size + ch.utf8Size) hl (by simp only [byteLen]; omega)
    simp [scanLine, hch, hfit, hrec]

theorem scanLine_tooLong (n : Nat) :
    ∀ size : Nat, size < MaxScanTokenSize → MaxScanTokenSize ≤ size + n →
      scanLine (List.replicate n 'a') size = Split.tooLong := by
  induction n with
  | zero => intro size h1 h2; omega
  | succ n ih =>
    intro size h1 h2
    have hch : ¬ 'a' = LF := by decide
    have hsz : Char.utf8Size 'a' = 1 := by decide
    rw [List.replicate_succ, scanLine, if_neg hch, hsz]
    by_cases hfit : MaxScanTokenSize ≤ size + 1
    · rw [if_pos hfit]
    · rw [if_neg hfit, ih (size + 1) (by omega) (by omega)]

theorem dropCR_of_ne (l : List Char) (h : l.getLast? ≠ some CR) : dropCR l = l := by
  simp [dropCR, h]

theorem Scan_of_cons (s : Scanner) (ch : Char) (rest : List Char)
    (hd : s.done = false) (hi : s.input = ch :: rest) :
    s.Scan =
      match scanLine (ch :: rest) 0 with
      | Split.line token rest =>
        (true, { s with input := rest, token := dropCR token })
      | Split.final token =>
        (true, { s with input := [], token := dropCR token })
      | Split.tooLong =>
        (false, { s with token := [], err := some ErrTooLong, done := true }) := by
  simp [Scanner.Scan, hd, hi]

theorem Scan_of_nil (s : Scanner) (hd : s.done = false) (hi : s.input = []) :
    s.Scan = (false, { s with token := [], err := s.readErr, done := true }) := by
  simp [Scanner.Scan, hd, hi]

/-- Scanning a good line that a line feed ends delivers the line. -/
theorem Scan_line (s : Scanner) (l rest : List Char)
    (hd : s.done = false) (hi : s.input = l ++ LF :: rest)
    (hno : LF ∉ l) (hcr : l.getLast? ≠ some CR) (hlen : byteLen l < MaxScanTokenSize) :
    s.Scan = (true, { s with input := rest, token := l }) := by
  have hsplit := scanLine_line l rest 0 hno (by omega)
  cases l with
  | nil =>
    rw [Scan_of_cons s LF rest hd (by simpa using hi)]
    simp only [List.nil_append] at hsplit
    rw [hsplit]
    simp [dropCR]
  | cons ch l =>
    rw [Scan_of_cons s ch (l ++ LF :: rest) hd (by simpa using hi)]
    simp only [List.cons_append] at hsplit
    rw [hsplit]
    simp only [dropCR_of_ne _ hcr]

/-- Scanning a good, non-empty last line that no line feed ends delivers it. -/
theorem Scan_final (s : Scanner) (l : List Char)
    (hd : s.done = false) (hi : s.input = l) (hne : l ≠ [])
    (hno : LF ∉ l) (hcr : l.getLast? ≠ some CR) (hlen : byteLen l < MaxScanTokenSize) :
    s.Scan = (true, { s with input := [], token := l }) := by
  have hsplit := scanLine_final l 0 hno (by omega)
  cases l with
  | nil => exact absurd rfl hne
  | cons ch l =>
    rw [Scan_of_cons s ch l hd hi, hsplit]
    simp only [dropCR_of_ne _ hcr]

theorem scanLine_rest_lt (input : List Char) :
    ∀ (size : Nat) (token rest : List Char),
      scanLine input size = Split.line token rest → rest.length < input.length := by
  induction input with
  | nil => intro size token rest h; simp [scanLine] at h
  | cons ch input ih =>
    intro size token rest h
    rw [scanLine] at h
    split_ifs at h with h1 h2
    · simp only [Split.line.injEq] at h
      rw [← h.2]
      simp
    · cases hrec : scanLine input (size + ch.utf8Size) with
      | line token1 rest1 =>
        rw [hrec] at h
        simp only [Split.line.injEq] at h
        have := ih _ _ _ hrec
        rw [← h.2]
        simp only [List.length_cons]
        omega
      | final token1 => rw [hrec] at h; simp at h
      | tooLong => rw [hrec] at h; simp at h

/-- A successful `Scan` consumes at least one character of the input. -/
theorem Scan_true_lt (s s1 : Scanner) (h : s.Scan = (true, s1)) :
    s1.input.length < s.input.length := by
  cases hd : s.done with
  | true => simp [Scanner.Scan, hd] at h
  | false =>
    cases hi : s.input with
    | nil => rw [Scan_of_nil s hd hi] at h; simp at h
    | cons ch rest =>
      rw [Scan_of_cons s ch rest hd hi] at h
      cases hsplit : scanLine (ch :: rest) 0 with
      | line token rest1 =>
        rw [hsplit] at h
        simp only [Prod.mk.injEq, true_and] at h
        have := scanLine_rest_lt _ _ _ _ hsplit
        rw [← h]
        exact this
      | final token =>
        rw [hsplit] at h
        simp only [Prod.mk.injEq, true_and] at h
        rw [← h]
        simp
      | tooLong => rw [hsplit] at h; simp at h

/-- The loop of `ReadInput` always ends by `Scan` returning false within the
iterations `ReadInput` allows: more fuel gives the same list. -/
theorem ReadInput_loop_fuel (host : Host) :
    ∀ (fuel : Nat) (s : Scanner) (hosts : List Host) (k : Nat),
      s.input.length < fuel →
        ReadInput.loop host (fuel + k) s hosts = ReadInput.loop host fuel s hosts := by
  intro fuel
  induction fuel with
  | zero => intro s hosts k h; omega
  | succ fuel ih =>
    intro s hosts k h
    rw [show fuel + 1 + k = (fuel + k) + 1 by omega, ReadInput.loop, ReadInput.loop]
    rcases hs : s.Scan with ⟨ok, s1⟩
    cases ok with
    | false => rfl
    | true =>
      have := Scan_true_lt s s1 hs
      exact ih s1 _ k (by omega)

/-- The loop of `ReadInput` over a text made of good lines builds one Host per
line, in order, the blank lines included. -/
theorem ReadInput_loop_lines (host : Host) (finalLF : Bool) (ls : List String) :
    ∀ (fuel : Nat) (s : Scanner) (hosts : List Host),
      s.done = false → s.input = textOf finalLF ls →
      (∀ l ∈ ls, goodLine l) → (finalLF = false → ∀ l, ls.getLast? = some l → l.data ≠ []) →
      (textOf finalLF ls).length < fuel →
        ReadInput.loop host fuel s hosts = hosts ++ ls.map (hostOf host) := by
  induction ls with
  | nil =>
    intro fuel s hosts hd hi _ _ hfuel
    cases fuel with
    | zero => omega
    | succ fuel =>
      rw [ReadInput.loop, Scan_of_nil s hd (by simpa [textOf] using hi)]
      simp
  | cons l ls ih =>
    intro fuel s hosts hd hi hgood hne hfuel
    obtain ⟨hno, hcr, hlen⟩ := hgood l (List.mem_cons_self _ _)
    cases fuel with
    | zero => omega
    | succ fuel =>
      by_cases hlast : (ls.isEmpty && !finalLF) = true
      · simp only [Bool.and_eq_true, List.isEmpty_iff, Bool.not_eq_true'] at hlast
        obtain ⟨hnil, hfin⟩ := hlast
        subst hnil
        have hl := hne hfin l rfl
        have htext : textOf finalLF [l] = l.data := by simp [textOf, hfin]
        rw [htext] at hi hfuel
        rw [ReadInput.loop, Scan_final s l.data hd hi hl hno hcr hlen]
        have hpos : 0 < l.data.length := List.length_pos.mpr hl
        cases fuel with
        | zero => omega
        | succ fuel =>
          simp only
          rw [ReadInput.loop, Scan_of_nil ⟨[], s.readErr, l.data, s.err, s.done⟩ hd rfl]
          simp [hostOf, Scanner.Text]
      · have htext : textOf finalLF (l :: ls) = l.data ++ LF :: textOf finalLF ls := by
          rw [textOf, if_neg hlast]
        have htail : finalLF = false → ∀ x, ls.getLast? = some x → x.data ≠ [] := by
          intro hf x hx
          cases ls with
          | nil => simp at hx
          | cons l2 ls2 => exact hne hf x (by rw [List.getLast?_cons_cons]; exact hx)
        rw [htext] at hi hfuel
        rw [ReadInput.loop, Scan_line s l.data _ hd hi hno hcr hlen]
        simp only
        rw [ih fuel ⟨textOf finalLF ls, s.readErr, l.data, s.err, s.done⟩ _ hd rfl
          (fun x hx => hgood x (List.mem_cons_of_mem _ hx)) htail
          (by simp only [List.length_append, List.length_cons] at hfuel; omega)]
        simp [hostOf, Scanner.Text]

/-- `ReadInput` on a text made of good lines, the last of which is not blank
when no line feed follows it: the Hosts of the lines, in order, and a nil
error. -/
theorem ReadInput_lines (host : Host) (finalLF : Bool) (ls : List String) (err : Option String)
    (hgood : ∀ l ∈ ls, goodLine l)
    (hne : finalLF = false → ∀ l, ls.getLast? = some l → l.data ≠ []) :
    ReadInput host ⟨String.mk (textOf finalLF ls), err⟩ = (ls.map (hostOf host), none) := by
  have := ReadInput_loop_lines host finalLF ls ((textOf finalLF ls).length + 1)
    (NewScanner ⟨String.mk (textOf finalLF ls), err⟩) [] rfl rfl hgood hne (by omega)
  simp only [List.nil_append] at this
  simp only [ReadInput, NewScanner, Scanner.Err, String.length]
  simp only [NewScanner] at this
  rw [this]

/-- `ReadInput` never returns an error: it asks the scanner for its error
before the first `Scan`, when there is none yet, and not after the loop. -/
theorem ReadInput_err_nil (host : Host) (reader : Reader) :
    (ReadInput host reader).2 = none := by
  simp [ReadInput, NewScanner, Scanner.Err]

theorem ReadInput_loop_stop (host : Host) (fuel : Nat) (s : Scanner) (hosts : List Host)
    (h : s.Scan.1 = false) : ReadInput.loop host (fuel + 1) s hosts = hosts := by
  rw [ReadInput.loop]
  rcases hs : s.Scan with ⟨ok, s1⟩
  rw [hs] at h
  simp only at h
  subst h
  rfl

/-- When the first `Scan` returns false, `ReadInput` returns no Host, and a
nil error. -/
theorem ReadInput_first_scan_false (host : Host) (reader : Reader)
    (h : (NewScanner reader).Scan.1 = false) : ReadInput host reader = ([], none) := by
  simp only [ReadInput, Scanner.Err, NewScanner]
  simp only [NewScanner] at h
  rw [ReadInput_loop_stop host _ _ [] h]

theorem longLine_data : longLine.data = 'a' :: List.replicate 65535 'a' := by
  have hM : MaxScanTokenSize = 65535 + 1 := by decide
  show List.replicate MaxScanTokenSize 'a' = 'a' :: List.replicate 65535 'a'
  rw [hM, List.replicate_succ]

/-- The scanner stops at the line `longLine` with `ErrTooLong`. -/
theorem Scan_longLine :
    (NewScanner (NewReader longLine)).Scan
      = (false, { NewScanner (NewReader longLine) with
                  token := [], err := some ErrTooLong, done := true }) := by
  have hsplit : scanLine ('a' :: List.replicate 65535 'a') 0 = Split.tooLong := by
    have h := scanLine_tooLong (65535 + 1) 0 (by decide) (by decide)
    rw [List.replicate_succ] at h
    exact h
  rw [Scan_of_cons _ 'a' (List.replicate 65535 'a') rfl longLine_data, hsplit]

/-! ## Claims on `ReadInput` -/

/-- C6 (as stated, refuted): an input of one non-empty line of 65536 letters
gives no Host at all, the scanner stopping at a line too long for its buffer;
and the one-line input "a", carriage return, gives a Host named "a", the
scanner dropping the carriage return. -/
theorem ReadInput_long_line :
    longLine ≠ "" ∧ LF ∉ longLine.data ∧
    ReadInput (Host.mk "" "22" 5 (60 * Second) (20 * Second)) (NewReader longLine) = ([], none) ∧
    (ReadInput (Host.mk "" "22" 5 (60 * Second) (20 * Second)) (NewReader "a\r")).1.map Host.Name
      = ["a"] := by
  refine ⟨?_, ?_, ?_, by decide⟩
  · intro h
    have h2 : longLine.data = [] := congrArg String.data h
    rw [longLine_data] at h2
    exact List.cons_ne_nil _ _ h2
  · rw [longLine_data]
    intro hm
    rcases List.mem_cons.mp hm with h1 | h1
    · exact absurd h1 (by decide)
    · exact absurd (List.eq_of_mem_replicate h1) (by decide)
  · exact ReadInput_first_scan_false _ _ (by rw [Scan_longLine])

/-- C6 (amended): for every settings Host and every input made of `n`
non-empty lines, each shorter than 65536 bytes and none ending in a carriage
return, with or without a line feed after the last line, `ReadInput` returns a
nil error and exactly `n` Hosts, whose Names are the lines in input order and
each of which carries the Port, MaxFailureCount, TimeLimit and CheckInterval
of the settings. -/
theorem ReadInput_nonempty_lines (host : Host) (finalLF : Bool) (ls : List String)
    (hne : ∀ l ∈ ls, l ≠ "") (hgood : ∀ l ∈ ls, goodLine l) :
    (ReadInput host (NewReader (String.mk (textOf finalLF ls)))).2 = none ∧
    (ReadInput host (NewReader (String.mk (textOf finalLF ls)))).1.length = ls.length ∧
    (ReadInput host (NewReader (String.mk (textOf finalLF ls)))).1.map Host.Name = ls ∧
    ∀ x ∈ (ReadInput host (NewReader (String.mk (textOf finalLF ls)))).1,
      x.Port = host.Port ∧ x.MaxFailureCount = host.MaxFailureCount ∧
        x.TimeLimit = host.TimeLimit ∧ x.CheckInterval = host.CheckInterval := by
  have hdata : finalLF = false → ∀ l, ls.getLast? = some l → l.data ≠ [] := by
    intro _ l hl hd
    exact hne l (List.mem_of_getLast?_eq_some hl) (String.ext hd)
  rw [NewReader, ReadInput_lines host finalLF ls none hgood hdata]
  refine ⟨rfl, by simp, ?_, ?_⟩
  · simp only [List.map_map]
    exact (List.map_congr_left (fun l _ => rfl)).trans (List.map_id ls)
  · intro x hx
    obtain ⟨l, _, rfl⟩ := List.mem_map.mp hx
    exact ⟨rfl, rfl, rfl, rfl⟩

/-- C6 at the input of `TestReadInput`: the four lines, port 22, 5 failures,
1 minute, 20 seconds. -/
theorem ReadInput_nonempty_lines_witness :
    (ReadInput (Host.mk "" "22" 5 (60 * Second) (20 * Second))
        (NewReader "127.0.0.1\n192.168.1.6\n192.168.1.32\nfoo.bar.net")).1.map Host.Name
      = ["127.0.0.1", "192.168.1.6", "192.168.1.32", "foo.bar.net"] :=
  (ReadInput_nonempty_lines (Host.mk "" "22" 5 (60 * Second) (20 * Second)) false
    ["127.0.0.1", "192.168.1.6", "192.168.1.32", "foo.bar.net"]
    (by decide) (by decide)).2.2.1

/-- C7 (as stated, refuted): on the lines "a", "", "b" `ReadInput` builds three
Hosts, the second with an empty Name: the blank line is not skipped. -/
theorem ReadInput_blank_line :
    (ReadInput (Host.mk "" "22" 5 (60 * Second) (20 * Second))
        (NewReader "a\n\nb\n")).1.map Host.Name = ["a", "", "b"] := by
  decide

/-- C7 (amended): for every input made of lines, blank or not, each shorter
than 65536 bytes and none ending in a carriage return, with a line feed after
each line or after each but a non-blank last one, `ReadInput` builds one Host
per line: as many Hosts as lines, whose Names are the lines in order, a blank
line giving a Host with an empty Name. -/
theorem ReadInput_one_host_per_line (host : Host) (finalLF : Bool) (ls : List String)
    (hgood : ∀ l ∈ ls, goodLine l)
    (hlast : finalLF = false → ls.getLast? ≠ some "") :
    (ReadInput host (NewReader (String.mk (textOf finalLF ls)))).1.length = ls.length ∧
    (ReadInput host (NewReader (String.mk (textOf finalLF ls)))).1.map Host.Name = ls := by
  have hdata : finalLF = false → ∀ l, ls.getLast? = some l → l.data ≠ [] := by
    intro hf l hl hd
    have : l = "" := String.ext hd
    subst this
    exact hlast hf hl
  rw [NewReader, ReadInput_lines host finalLF ls none hgood hdata]
  refine ⟨by simp, ?_⟩
  simp only [List.map_map]
  exact (List.map_congr_left (fun l _ => rfl)).trans (List.map_id ls)

/-- C7 at a concrete input: the lines "a", "", "b", each followed by a line
feed, give three Hosts, the second with an empty Name. -/
theorem ReadInput_one_host_per_line_witness :
    (ReadInput (Host.mk "" "22" 5 (60 * Second) (20 * Second))
        (NewReader (String.mk (textOf true ["a", "", "b"])))).1.length = 3 ∧
    (ReadInput (Host.mk "" "22" 5 (60 * Second) (20 * Second))
        (NewReader (String.mk (textOf true ["a", "", "b"])))).1.map Host.Name = ["a", "", "b"] :=
  ReadInput_one_host_per_line (Host.mk "" "22" 5 (60 * Second) (20 * Second)) true ["a", "", "b"]
    (by decide) (by decide)

/-- C9 (the code drops the read error): a reader that delivers two lines and
then fails.  The third `Scan` returns false and the scanner holds the error,
but `ReadInput` returns the two Hosts with a nil error. -/
theorem ReadInput_drops_read_error :
    ((NewScanner ⟨"127.0.0.1\n192.168.1.6\n", some "read failed"⟩).Scan.2.Scan.2.Scan.1 = false ∧
      (NewScanner ⟨"127.0.0.1\n192.168.1.6\n", some "read failed"⟩).Scan.2.Scan.2.Scan.2.Err
        = some "read failed") ∧
    ReadInput (Host.mk "" "22" 5 (60 * Second) (20 * Second))
        ⟨"127.0.0.1\n192.168.1.6\n", some "read failed"⟩
      = ([hostOf (Host.mk "" "22" 5 (60 * Second) (20 * Second)) "127.0.0.1",
          hostOf (Host.mk "" "22" 5 (60 * Second) (20 * Second)) "192.168.1.6"], none) := by
  decide

/-! ## Claims on `ReadResults` -/

theorem ReadResults_loop_count (k : Nat) :
    ∀ (rq : List Result) (resultCount : Int) (printed : List String),
      k + 1 ≤ rq.length →
        ReadResults.loop (resultCount + (k + 1 : Nat)) rq resultCount printed =
          { printed := printed ++ (rq.take (k + 1)).map Result.Msg ++ [finishedMsg]
            left := rq.drop (k + 1)
            returned := true } := by
  induction k with
  | zero =>
    intro rq resultCount printed hlen
    cases rq with
    | nil => simp at hlen
    | cons r rq => simp [ReadResults.loop]
  | succ k ih =>
    intro rq resultCount printed hlen
    cases rq with
    | nil => simp at hlen
    | cons r rq =>
      have hne : ¬ (resultCount + ((k + 1 + 1 : Nat) : Int) = resultCount + 1) := by
        push_cast; omega
      have hrec := ih rq (resultCount + 1) (printed ++ [r.Msg])
        (by simp only [List.length_cons] at hlen; omega)
      have hcount : resultCount + 1 + ((k + 1 : Nat) : Int)
          = resultCount + ((k + 1 + 1 : Nat) : Int) := by push_cast; omega
      rw [hcount] at hrec
      rw [ReadResults.loop]
      simp only [beq_iff_eq, hne, if_false]
      rw [hrec]
      simp

/-- C8 (as stated, refuted): with `hostCount = 0` and a queue that delivers two
Results, `ReadResults` receives both, prints their messages, never prints the
completion marker and does not return; with an empty queue it waits for ever
in the receive. -/
theorem ReadResults_zero_hosts :
    ReadResults
        [⟨Host.mk "a" "22" 5 60 20, 0, 3, false, true, false, "a is reporting ok"⟩,
         ⟨Host.mk "b" "22" 5 60 20, 3, 0, false, false, true, "b is down"⟩] 0
      = { printed := ["a is reporting ok", "b is down"], left := [], returned := false } ∧
    ReadResults [] 0 = { printed := [], left := [], returned := false } := by
  decide

/-- C8 (amended): for every `hostCount ≥ 1` and every queue that delivers at
least `hostCount` Results, `ReadResults` receives exactly the first `hostCount`
of them, prints their messages in order of arrival, then the completion
marker, and returns, leaving the Results after the `hostCount`-th in the
queue. -/
theorem ReadResults_receives_hostCount (rq : List Result) (hostCount : Nat)
    (hpos : 1 ≤ hostCount) (hlen : hostCount ≤ rq.length) :
    ReadResults rq hostCount =
      { printed := (rq.take hostCount).map Result.Msg ++ [finishedMsg]
        left := rq.drop hostCount
        returned := true } := by
  obtain ⟨k, rfl⟩ : ∃ k, hostCount = k + 1 := ⟨hostCount - 1, by omega⟩
  have := ReadResults_loop_count k rq 0 [] hlen
  simp only [zero_add, List.nil_append] at this
  exact this

/-- C8 at a concrete input: two hosts expected, three Results delivered: two
are received and printed, the third is left. -/
theorem ReadResults_receives_hostCount_witness :
    ReadResults
        [⟨Host.mk "a" "22" 5 60 20, 0, 3, false, true, false, "a is reporting ok"⟩,
         ⟨Host.mk "b" "22" 5 60 20, 3, 0, false, false, true, "b is down"⟩,
         ⟨Host.mk "c" "22" 5 60 20, 1, 2, true, false, false, "c is flapping"⟩] 2
      = { printed := ["a is reporting ok", "b is down", finishedMsg]
          left := [⟨Host.mk "c" "22" 5 60 20, 1, 2, true, false, false, "c is flapping"⟩]
          returned := true } :=
  ReadResults_receives_hostCount
    [⟨Host.mk "a" "22" 5 60 20, 0, 3, false, true, false, "a is reporting ok"⟩,
     ⟨Host.mk "b" "22" 5 60 20, 3, 0, false, false, true, "b is down"⟩,
     ⟨Host.mk "c" "22" 5 60 20, 1, 2, true, false, false, "c is flapping"⟩] 2
    (by decide) (by decide)

end PortCheck
